import Mathlib

/-!
Verification model of the reddit-text-analysis archiver.

The definitions below are a shallow embedding of the retrieval engine of the
repository: the `Pushshift` discovery client (`src/pushshift_api.py` and the
identical copy in `src/reddit_utils.py`), the record builders
(`submission_to_dict`, `comment_to_dict` in `src/reddit_utils.py`), and the
driver loop of `src/archive_subreddit.py` (remaining-count computation, resume
cursor, checkpoint filenames and the write-before-delete save sequence).

Python values that flow through the client are modelled by `JVal` (parsed
JSON); a network response is modelled by `Resp`, which carries the response
text together with its parse result (the HTTP transport and the JSON parser
themselves are external collaborators).  Machine floats only appear as the
rate-limiter clock, modelled by `ℚ`.
-/

/-- Parsed JSON / Python value as it flows through the discovery client. -/
inductive JVal where
  | jnull : JVal
  | jbool : Bool → JVal
  | jint : Int → JVal
  | jstr : String → JVal
  | jarr : List JVal → JVal
  | jobj : List (String × JVal) → JVal

/-- Dictionary lookup, `d[k]`: first binding of `k` (Python dicts have unique
keys, so first-match lookup is exact). `none` models a raised `KeyError`. -/
def lookupField (kvs : List (String × JVal)) (k : String) : Option JVal :=
  match kvs with
  | [] => none
  | (k2, v) :: rest => if k2 = k then some v else lookupField rest k

/-- Python truthiness of a parsed JSON value (`if not items: break`). -/
def isFalsy : JVal → Bool
  | .jnull => true
  | .jbool b => !b
  | .jint n => n == 0
  | .jstr s => s.isEmpty
  | .jarr xs => xs.isEmpty
  | .jobj kvs => kvs.isEmpty

/-! ### Timestamp formatting

`submission_to_dict` and `comment_to_dict` store
`datetime.fromtimestamp(created_utc).strftime('%Y-%m-%d %H:%M:%S')`.
The conversion below is the standard civil-from-days algorithm (the process
local timezone is taken to be UTC). -/

/-- Gregorian date of a day number counted from 1970-01-01. -/
def civilFromDays (z0 : Int) : Int × Nat × Nat :=
  let z : Int := z0 + 719468
  let era : Int := z.fdiv 146097
  let doe : Nat := (z - era * 146097).toNat
  let yoe : Nat := (doe - doe / 1460 + doe / 36524 - doe / 146096) / 365
  let doy : Nat := doe - (365 * yoe + yoe / 4 - yoe / 100)
  let mp : Nat := (5 * doy + 2) / 153
  let d : Nat := doy - (153 * mp + 2) / 5 + 1
  let m : Nat := if mp < 10 then mp + 3 else mp - 9
  (era * 400 + yoe + (if m ≤ 2 then 1 else 0), m, d)

/-- Zero-padded two-digit decimal rendering. -/
def pad2 (n : Nat) : String :=
  if n < 10 then "0" ++ toString n else toString n

/-- Rendering of `datetime.fromtimestamp(ts).strftime('%Y-%m-%d %H:%M:%S')`
for an epoch-seconds timestamp. -/
def fmtTs (ts : Int) : String :=
  let days : Int := ts.fdiv 86400
  let secOfDay : Nat := (ts - days * 86400).toNat
  let ymd := civilFromDays days
  let hh : Nat := secOfDay / 3600
  let mm : Nat := secOfDay % 3600 / 60
  let ss : Nat := secOfDay % 60
  toString ymd.1 ++ "-" ++ pad2 ymd.2.1 ++ "-" ++ pad2 ymd.2.2 ++ " " ++
    pad2 hh ++ ":" ++ pad2 mm ++ ":" ++ pad2 ss

example : fmtTs 1700000000 = "2023-11-14 22:13:20" := by decide

/-! ### Record builders (`src/reddit_utils.py`)

Attribute values of praw objects are dynamic; they are modelled as `JVal`.
The creation timestamp is the one attribute whose value the builders
transform, so it is kept as an `Int` (epoch seconds). -/

/-- Attributes of a praw `Submission` read by `submission_to_dict`. -/
structure SubmissionAttrs where
  author_name : JVal
  author_flair_text : JVal
  created_utc : Int
  distinguished : JVal
  edited : JVal
  id : JVal
  is_original_content : JVal
  link_flair_text : JVal
  locked : JVal
  name : JVal
  num_comments : JVal
  over_18 : JVal
  permalink : JVal
  removed_by_category : JVal
  score : JVal
  selftext : JVal
  spoiler : JVal
  stickied : JVal
  subreddit_display_name : JVal
  title : JVal
  upvote_ratio : JVal
  url : JVal

/-- Model of `reddit_utils.submission_to_dict`: the dict literal in its source
order, with `comments` set to `None` and `created_utc` formatted through
`datetime.fromtimestamp(...).strftime(...)`. -/
def submission_to_dict (s : SubmissionAttrs) : JVal :=
  .jobj [
    ("author_name", s.author_name),
    ("author_flair_text", s.author_flair_text),
    ("comments", .jnull),
    ("created_utc", .jstr (fmtTs s.created_utc)),
    ("distinguished", s.distinguished),
    ("edited", s.edited),
    ("id", s.id),
    ("is_original_content", s.is_original_content),
    ("link_flair_text", s.link_flair_text),
    ("locked", s.locked),
    ("name", s.name),
    ("num_comments", s.num_comments),
    ("over_18", s.over_18),
    ("permalink", s.permalink),
    ("removed_by_category", s.removed_by_category),
    ("score", s.score),
    ("selftext", s.selftext),
    ("spoiler", s.spoiler),
    ("stickied", s.stickied),
    ("subreddit_display_name", s.subreddit_display_name),
    ("title", s.title),
    ("upvote_ratio", s.upvote_ratio),
    ("url", s.url)]

/-- Scalar attributes of a praw `Comment` read by `comment_to_dict`. -/
structure CommentAttrs where
  author_name : JVal
  body : JVal
  created_utc : Int
  distinguished : JVal
  edited : JVal
  id : JVal
  is_submitter : JVal
  link_id : JVal
  parent_id : JVal
  permalink : JVal
  score : JVal
  stickied : JVal

/-- Comment tree as praw delivers it: scalar attributes plus nested replies. -/
inductive PComment where
  | node : CommentAttrs → List PComment → PComment

mutual

/-- Model of `reddit_utils.comment_to_dict`: the dict literal in its source
order; `replies` recursively maps `comment_to_dict` over the children. -/
def comment_to_dict : PComment → JVal
  | .node a rs => .jobj [
      ("author_name", a.author_name),
      ("body", a.body),
      ("created_utc", .jstr (fmtTs a.created_utc)),
      ("distinguished", a.distinguished),
      ("edited", a.edited),
      ("id", a.id),
      ("is_submitter", a.is_submitter),
      ("link_id", a.link_id),
      ("parent_id", a.parent_id),
      ("permalink", a.permalink),
      ("replies", .jarr (commentsToDicts rs)),
      ("score", a.score),
      ("stickied", a.stickied)]

/-- List-comprehension part of `comment_to_dict` for the nested replies. -/
def commentsToDicts : List PComment → List JVal
  | [] => []
  | c :: rest => comment_to_dict c :: commentsToDicts rest

end

/-! ### Driver record assembly (`src/archive_subreddit.py`, lines 112-117) -/

/-- Python dict assignment `d[k] = v`: an existing key keeps its insertion
position, an absent key is appended. -/
def setField (kvs : List (String × JVal)) (k : String) (v : JVal) :
    List (String × JVal) :=
  match kvs with
  | [] => [(k, v)]
  | (k2, v2) :: rest =>
      if k2 = k then (k2, v) :: rest else (k2, v2) :: setField rest k v

/-- Driver statement `submission['comments'] = [comment_to_dict(c) ...]`. -/
def setComments (v : JVal) (cs : List JVal) : JVal :=
  match v with
  | .jobj kvs => .jobj (setField kvs "comments" (.jarr cs))
  | other => other

/-- Python string order: lexicographic comparison of code points. -/
def charListLe : List Char → List Char → Bool
  | [], _ => true
  | _ :: _, [] => false
  | x :: xs, y :: ys =>
      if x.toNat < y.toNat then true
      else if y.toNat < x.toNat then false
      else charListLe xs ys

/-- Python `a <= b` on strings. -/
def strLe (a b : String) : Bool :=
  charListLe a.data b.data

/-- Stable insertion of an item tuple by key, placing the inserted element
before the first element it compares less-or-equal to.  Python's `sorted` on
`submission.items()` compares tuples by key first, and the builders produce
distinct keys, so the comparison never reaches the values. -/
def insertByKey (p : String × JVal) : List (String × JVal) → List (String × JVal)
  | [] => [p]
  | q :: rest =>
      if strLe p.1 q.1 then p :: q :: rest else q :: insertByKey p rest

/-- Stable sort of dict items by key, as `sorted(submission.items())`. -/
def pySorted : List (String × JVal) → List (String × JVal)
  | [] => []
  | p :: rest => insertByKey p (pySorted rest)

/-- Driver statement `submission = dict(sorted(submission.items()))`. -/
def sortItems : JVal → JVal
  | .jobj kvs => .jobj (pySorted kvs)
  | other => other

/-- EnrichedRecord appended to the accumulator for one discovered submission
(driver lines 112-117). -/
def buildRecord (s : SubmissionAttrs) (cs : List PComment) : JVal :=
  sortItems (setComments (submission_to_dict s) (commentsToDicts cs))

/-! ### Key-order predicates -/

/-- Boolean check that a key list is lexicographically sorted (pairwise). -/
def keysSortedB : List String → Bool
  | [] => true
  | a :: rest => (rest.all fun b => strLe a b) && keysSortedB rest

/-- Top-level key list of a record. -/
def topKeys : JVal → List String
  | .jobj kvs => kvs.map Prod.fst
  | _ => []

mutual

/-- The comment/reply dictionaries produced for one comment tree: its own
`comment_to_dict` output and, recursively, every nested reply dictionary. -/
def flattenedCommentDicts : PComment → List JVal
  | .node a rs => comment_to_dict (.node a rs) :: flattenedForest rs

/-- All comment/reply dictionaries produced for a forest of comment trees. -/
def flattenedForest : List PComment → List JVal
  | [] => []
  | c :: rest => flattenedCommentDicts c ++ flattenedForest rest

end

example :
    keysSortedB ["author_name", "body", "created_utc", "distinguished",
      "edited", "id", "is_submitter", "link_id", "parent_id", "permalink",
      "replies", "score", "stickied"] = true := by decide

/-! ### Discovery client (`src/pushshift_api.py`, class `Pushshift`)

A network response is modelled by `Resp`: either `raise_for_status` raised an
`HTTPError` with a status code, or a body was delivered, carried as its text
together with its parse result (`none` models a `json.JSONDecodeError`).  The
urllib3 retry adapter sits below this interface and is an external
collaborator: `Resp` is what `_query_items` itself observes. -/

/-- One observed network response. -/
inductive Resp where
  | httpFailure (status : Nat)
  | success (text : String) (parsed : Option JVal)

/-- Failure modes of `_query_items` / `query_submission_count`.  The first
three are the `PushshiftError` subclasses; `typeError` and `itemKeyError`
model uncaught Python `TypeError` / `KeyError` escapes. -/
inductive PErr where
  | httpError (status : Nat)
  | jsonError (text : String)
  | keyError (body : JVal)
  | typeError
  | itemKeyError (item : JVal)
  | notImplementedError

/-- Request size fixed in `Pushshift.__init__` (`self._request_size = 500`). -/
def requestSize : Nat := 500

/-- Parameters of one page request issued by `_query_items`. -/
structure PageRequest where
  idKey : String
  idVal : String
  size : Nat
  before : Option JVal

/-- How a run of the generator ended. -/
inductive Outcome where
  | finished
  | failed (e : PErr)

/-- Observable behavior of one `_query_items` run: yielded items in order,
page requests issued in order, and how the run ended. -/
structure RunResult where
  yielded : List JVal
  requests : List PageRequest
  outcome : Outcome

/-- Per-page processing of `_query_items` (lines 143-155): `raise_for_status`,
`resp.json()`, then `resp['data']`.  Subscripting a non-dict body raises an
uncaught `TypeError` in Python, not a `KeyError`. -/
def processResponse : Resp → Except PErr JVal
  | .httpFailure s => .error (.httpError s)
  | .success t none => .error (.jsonError t)
  | .success _ (some (.jobj kvs)) =>
      match lookupField kvs "data" with
      | none => .error (.keyError (.jobj kvs))
      | some d => .ok d
  | .success _ (some _) => .error .typeError

/-- Python `pending_items > 0` (`float('inf')` when `count is None`). -/
def pendingPos : Option Int → Bool
  | none => true
  | some n => decide (0 < n)

/-- Python `pending_items -= 1`. -/
def decPending : Option Int → Option Int
  | none => none
  | some n => some (n - 1)

/-- Python `items[:None if pending_items == float('inf') else pending_items]`;
only evaluated while `pending_items > 0`. -/
def pendingTake : Option Int → List JVal → List JVal
  | none, xs => xs
  | some n, xs => xs.take n.toNat

/-- Body of `for item in items[...]`: decrement the pending count, read
`item['created_utc']` into the cursor, yield the item.  A non-dict item or a
missing key raises before the item is yielded. -/
def consumePage : List JVal → Option Int → Option JVal →
    List JVal × Option Int × Option JVal × Option PErr
  | [], pending, before => ([], pending, before, none)
  | item :: rest, pending, before =>
      let pending2 := decPending pending
      match item with
      | .jobj fields =>
          (match lookupField fields "created_utc" with
            | none => ([], pending2, before, some (.itemKeyError (.jobj fields)))
            | some c =>
                let r := consumePage rest pending2 (some c)
                (.jobj fields :: r.1, r.2.1, r.2.2.1, r.2.2.2))
      | _ => ([], pending2, before, some .typeError)

/-- The `while pending_items > 0` loop of `_query_items`, driven by the
sequence of responses the endpoint serves (one per iteration; an exhausted
list ends the run).  A page whose `data` is empty breaks the loop; truthy
non-list `data` fails on slicing with an uncaught `TypeError`. -/
def queryItemsLoop (idKey idVal : String) (pages : List Resp)
    (pending : Option Int) (before : Option JVal) : RunResult :=
  if pendingPos pending = false then ⟨[], [], .finished⟩
  else
    match pages with
    | [] => ⟨[], [], .finished⟩
    | r :: rest =>
        let req : PageRequest := ⟨idKey, idVal, requestSize, before⟩
        match processResponse r with
        | .error e => ⟨[], [req], .failed e⟩
        | .ok d =>
            if isFalsy d then ⟨[], [req], .finished⟩
            else
              match d with
              | .jarr items =>
                  match consumePage (pendingTake pending items) pending before with
                  | (ys, _, _, some e) => ⟨ys, [req], .failed e⟩
                  | (ys, pending2, before2, none) =>
                      let res := queryItemsLoop idKey idVal rest pending2 before2
                      ⟨ys ++ res.yielded, req :: res.requests, res.outcome⟩
              | _ => ⟨[], [req], .failed .typeError⟩

/-- Model of `Pushshift._query_items`: the item-type guard
(`NotImplementedError` for other types), the id key selection, and the
pagination loop. -/
def queryItems (itemType subredditOrId : String) (pages : List Resp)
    (count : Option Int) (before : Option JVal) : RunResult :=
  if itemType = "submission" ∨ itemType = "comment" then
    let idKey := if itemType = "submission" then "subreddit" else "link_id"
    queryItemsLoop idKey subredditOrId pages count before
  else ⟨[], [], .failed .notImplementedError⟩

/-- Model of `Pushshift.query_submissions`. -/
def querySubmissions (subreddit : String) (pages : List Resp)
    (count : Option Int) (before : Option JVal) : RunResult :=
  queryItems "submission" subreddit pages count before

/-- Model of `Pushshift.query_comments`. -/
def queryComments (submissionId : String) (pages : List Resp)
    (count : Option Int) (before : Option JVal) : RunResult :=
  queryItems "comment" submissionId pages count before

/-- Model of `Pushshift.query_submission_count`:
`resp['metadata']['total_results']` with both lookups inside one
`except KeyError` that carries the whole parsed body. -/
def querySubmissionCount (r : Resp) : Except PErr JVal :=
  match r with
  | .httpFailure s => .error (.httpError s)
  | .success t none => .error (.jsonError t)
  | .success _ (some (.jobj kvs)) =>
      (match lookupField kvs "metadata" with
        | none => .error (.keyError (.jobj kvs))
        | some (.jobj mkvs) =>
            (match lookupField mkvs "total_results" with
              | none => .error (.keyError (.jobj kvs))
              | some c => .ok c)
        | some _ => .error .typeError)
  | .success _ (some _) => .error .typeError

/-! ### Rate limiter (`_handle_ratelimit_before_request`)

The monotonic clock `time.perf_counter()` is modelled by `ℚ`; `time.sleep`
suspends for exactly the requested duration.  The state is the
`_last_request_time` field, `0` on a fresh instance. -/

/-- Fixed configuration `server_ratelimit_per_minute = 60`. -/
def serverRatelimitPerMinute : ℚ := 60

/-- Field `self._wait_between_secs = 60.0 / server_ratelimit_per_minute`. -/
def waitBetweenSecs : ℚ := 60 / serverRatelimitPerMinute

/-- Field `self._last_request_time = 0` set in `__init__`. -/
def initialLastRequestTime : ℚ := 0

/-- Argument of `time.sleep`:
`max(0.0, self._wait_between_secs - (time.perf_counter() - self._last_request_time))`. -/
def sleepDuration (lastRequestTime now : ℚ) : ℚ :=
  max 0 (waitBetweenSecs - (now - lastRequestTime))

/-- Clock value when `_handle_ratelimit_before_request` returns; it is also
the new `_last_request_time`, read from `time.perf_counter()` after the
sleep. -/
def acquireFinish (lastRequestTime now : ℚ) : ℚ :=
  now + sleepDuration lastRequestTime now

/-- Finish clock times of consecutive acquisitions: the first call starts at
clock `start`; each later call starts `gap` after the previous one returned
(single-threaded caller). -/
def runLimiter (last : ℚ) (start : ℚ) : List ℚ → List ℚ
  | [] => [acquireFinish last start]
  | g :: rest =>
      let fin := acquireFinish last start
      fin :: runLimiter fin (fin + g) rest

/-! ### Driver (`src/archive_subreddit.py`) -/

/-- Session state the driver carries through `main`. -/
structure SessionState where
  subreddit : String
  max_submissions : Option Int
  t_start_ms : Nat
  t_end_ms : Nat
  posts : List JVal

/-- The `count` argument of the discovery call (line 111):
`max_submissions - len(posts)`.  In Python, `None - int` raises a
`TypeError`, modelled as `Except.error` with the interpreter message. -/
def mainQueryCount (max_submissions : Option Int) (postsLen : Nat) :
    Except String Int :=
  match max_submissions with
  | some n => .ok (n - postsLen)
  | none => .error "TypeError: unsupported operand types for -: NoneType and int"

/-- Resume cursor (line 88): `before = posts[-1]['created_utc']`, read from
the checkpointed records. -/
def resumeBefore (posts : List JVal) : Option JVal :=
  match posts.getLast? with
  | some (.jobj kvs) => lookupField kvs "created_utc"
  | _ => none

/-- Discriminator: the cursor is a formatted string. -/
def isStrVal : Option JVal → Bool
  | some (.jstr _) => true
  | _ => false

/-- Discriminator: the cursor is an integer (epoch-seconds) value. -/
def isIntVal : Option JVal → Bool
  | some (.jint _) => true
  | _ => false

/-- Python `str` applied to `max_submissions` by the f-string of line 124:
`str(None)` is the four characters `None`. -/
def pyStrOptInt : Option Int → String
  | none => "None"
  | some n => toString n

/-- Intermediate checkpoint filename (line 124):
`intermediate_{subreddit}_{max_submissions}_{t_start_ms}_{t_end_ms}.json`. -/
def intermediateArchiveName (st : SessionState) : String :=
  "intermediate_" ++ st.subreddit ++ "_" ++ pyStrOptInt st.max_submissions ++
    "_" ++ toString st.t_start_ms ++ "_" ++ toString st.t_end_ms ++ ".json"

/-- Final archive filename (line 132):
`{subreddit}_{len(posts)}_{t_start_ms}_{t_end_ms}.json`. -/
def finalArchiveName (st : SessionState) : String :=
  st.subreddit ++ "_" ++ toString st.posts.length ++ "_" ++
    toString st.t_start_ms ++ "_" ++ toString st.t_end_ms ++ ".json"

/-! ### Substring and pattern helpers -/

/-- Boolean list-prefix test by code points. -/
def startsWithB : List Char → List Char → Bool
  | [], _ => true
  | _ :: _, [] => false
  | x :: xs, y :: ys => (x.toNat == y.toNat) && startsWithB xs ys

/-- Boolean contiguous-substring test. -/
def hasSubstrB (pat : List Char) : List Char → Bool
  | [] => startsWithB pat []
  | x :: rest => startsWithB pat (x :: rest) || hasSubstrB pat rest

/-- Python `pat in s` for strings. -/
def strContains (s pat : String) : Bool :=
  hasSubstrB pat.data s.data

/-- Maximal digit run at the front of a character list (regex `\d+`, greedy). -/
def takeDigits : List Char → List Char × List Char
  | [] => ([], [])
  | c :: rest =>
      if c.isDigit then
        let r := takeDigits rest
        (c :: r.1, r.2)
      else ([], c :: rest)

/-- Strip an exact literal from the front, returning the remainder. -/
def stripLit : List Char → List Char → Option (List Char)
  | [], s => some s
  | _ :: _, [] => none
  | x :: xs, y :: ys => if x = y then stripLit xs ys else none

/-- Regex group `(\d+|inf)`: a nonempty digit run, or the literal `inf`.
Deterministic (greedy) matching is exact here because in the names under
consideration every group is delimited by a non-digit character. -/
def matchCountGroup (s : List Char) : Option (List Char) :=
  let d := takeDigits s
  if d.1.isEmpty then stripLit "inf".data s else some d.2

/-- Tail `_(\d+)_(\d+).json` of the checkpoint-discovery regex of line 79
(`re.match` anchors at the start only; the unescaped dot matches any
character). -/
def matchWindowTail (s : List Char) : Bool :=
  match stripLit "_".data s with
  | none => false
  | some s1 =>
      let d1 := takeDigits s1
      if d1.1.isEmpty then false
      else
        match stripLit "_".data d1.2 with
        | none => false
        | some s2 =>
            let d2 := takeDigits s2
            if d2.1.isEmpty then false
            else
              match d2.2 with
              | [] => false
              | _ :: s3 => startsWithB "json".data s3

/-- Checkpoint-discovery pattern of line 79:
`intermediate_{subreddit}_(\d+|inf)_(\d+)_(\d+).json`, applied with
`re.match`. -/
def matchesIntermediatePattern (subreddit name : String) : Bool :=
  match stripLit ("intermediate_" ++ subreddit ++ "_").data name.data with
  | none => false
  | some s =>
      match matchCountGroup s with
      | none => false
      | some s1 => matchWindowTail s1

/-! ### Checkpoint save sequence (lines 121-136)

Each save writes the new archive file completely (`write_text`) and only then
unlinks the previous one.  The filesystem is modelled as the list of live
file names. -/

/-- Primitive filesystem operation. -/
inductive FsOp where
  | write (name : String)
  | delete (name : String)

/-- Effect of one operation: `write_text` creates (or overwrites) the file,
`unlink` removes it. -/
def applyOp (fs : List String) : FsOp → List String
  | .write n => fs.insert n
  | .delete n => fs.erase n

/-- Operations of the session's successive saves: for each save the driver
writes the new archive file, then unlinks the previous one when there is one
(`old_archive_file is not None`), and the new file becomes the previous one
for the next save. -/
def sessionOps (old : Option String) : List String → List FsOp
  | [] => []
  | n :: rest =>
      match old with
      | some o => .write n :: .delete o :: sessionOps (some n) rest
      | none => .write n :: sessionOps (some n) rest

/-- Filesystem contents after each successive operation. -/
def fsStates (fs : List String) : List FsOp → List (List String)
  | [] => []
  | op :: rest =>
      let fs2 := applyOp fs op
      fs2 :: fsStates fs2 rest

/-- Pairwise-distinct consecutive names. -/
def consecDistinct : List String → Bool
  | [] => true
  | [_] => true
  | a :: b :: rest => (a != b) && consecDistinct (b :: rest)

/-! ### The second `Pushshift` copy (`src/reddit_utils.py`, lines 48-178)

`reddit_utils.py` contains its own `Pushshift` class, the one
`archive_subreddit.py` actually imports.  It is transcribed here separately
so that its equivalence with the `pushshift_api.py` copy is a theorem about
two independent embeddings rather than a definition shared by fiat. -/

namespace RedditUtils

/-- Per-page processing of `reddit_utils.Pushshift._query_items`. -/
def processResponse : Resp → Except PErr JVal
  | .httpFailure s => .error (.httpError s)
  | .success t none => .error (.jsonError t)
  | .success _ (some (.jobj kvs)) =>
      match lookupField kvs "data" with
      | none => .error (.keyError (.jobj kvs))
      | some d => .ok d
  | .success _ (some _) => .error .typeError

/-- Python `pending_items > 0` in the `reddit_utils` copy. -/
def pendingPos : Option Int → Bool
  | none => true
  | some n => decide (0 < n)

/-- Python `pending_items -= 1` in the `reddit_utils` copy. -/
def decPending : Option Int → Option Int
  | none => none
  | some n => some (n - 1)

/-- Python slice of the pending items in the `reddit_utils` copy. -/
def pendingTake : Option Int → List JVal → List JVal
  | none, xs => xs
  | some n, xs => xs.take n.toNat

/-- Item loop body of the `reddit_utils` copy. -/
def consumePage : List JVal → Option Int → Option JVal →
    List JVal × Option Int × Option JVal × Option PErr
  | [], pending, before => ([], pending, before, none)
  | item :: rest, pending, before =>
      let pending2 := decPending pending
      match item with
      | .jobj fields =>
          (match lookupField fields "created_utc" with
            | none => ([], pending2, before, some (.itemKeyError (.jobj fields)))
            | some c =>
                let r := consumePage rest pending2 (some c)
                (.jobj fields :: r.1, r.2.1, r.2.2.1, r.2.2.2))
      | _ => ([], pending2, before, some .typeError)

/-- Pagination loop of the `reddit_utils` copy. -/
def queryItemsLoop (idKey idVal : String) (pages : List Resp)
    (pending : Option Int) (before : Option JVal) : RunResult :=
  if pendingPos pending = false then ⟨[], [], .finished⟩
  else
    match pages with
    | [] => ⟨[], [], .finished⟩
    | r :: rest =>
        let req : PageRequest := ⟨idKey, idVal, requestSize, before⟩
        match processResponse r with
        | .error e => ⟨[], [req], .failed e⟩
        | .ok d =>
            if isFalsy d then ⟨[], [req], .finished⟩
            else
              match d with
              | .jarr items =>
                  match consumePage (pendingTake pending items) pending before with
                  | (ys, _, _, some e) => ⟨ys, [req], .failed e⟩
                  | (ys, pending2, before2, none) =>
                      let res := queryItemsLoop idKey idVal rest pending2 before2
                      ⟨ys ++ res.yielded, req :: res.requests, res.outcome⟩
              | _ => ⟨[], [req], .failed .typeError⟩

/-- Model of `reddit_utils.Pushshift._query_items`. -/
def queryItems (itemType subredditOrId : String) (pages : List Resp)
    (count : Option Int) (before : Option JVal) : RunResult :=
  if itemType = "submission" ∨ itemType = "comment" then
    let idKey := if itemType = "submission" then "subreddit" else "link_id"
    queryItemsLoop idKey subredditOrId pages count before
  else ⟨[], [], .failed .notImplementedError⟩

/-- Model of `reddit_utils.Pushshift.query_submissions`. -/
def querySubmissions (subreddit : String) (pages : List Resp)
    (count : Option Int) (before : Option JVal) : RunResult :=
  queryItems "submission" subreddit pages count before

/-- Model of `reddit_utils.Pushshift.query_comments`. -/
def queryComments (submissionId : String) (pages : List Resp)
    (count : Option Int) (before : Option JVal) : RunResult :=
  queryItems "comment" submissionId pages count before

/-- Model of `reddit_utils.Pushshift.query_submission_count`. -/
def querySubmissionCount (r : Resp) : Except PErr JVal :=
  match r with
  | .httpFailure s => .error (.httpError s)
  | .success t none => .error (.jsonError t)
  | .success _ (some (.jobj kvs)) =>
      (match lookupField kvs "metadata" with
        | none => .error (.keyError (.jobj kvs))
        | some (.jobj mkvs) =>
            (match lookupField mkvs "total_results" with
              | none => .error (.keyError (.jobj kvs))
              | some c => .ok c)
        | some _ => .error .typeError)
  | .success _ (some _) => .error .typeError

/-- Rate-limit wait of the `reddit_utils` copy. -/
def waitBetweenSecs : ℚ := 60 / serverRatelimitPerMinute

/-- Sleep argument of the `reddit_utils` copy. -/
def sleepDuration (lastRequestTime now : ℚ) : ℚ :=
  max 0 (waitBetweenSecs - (now - lastRequestTime))

/-- Acquisition finish time of the `reddit_utils` copy. -/
def acquireFinish (lastRequestTime now : ℚ) : ℚ :=
  now + sleepDuration lastRequestTime now

end RedditUtils

/-! ### Helper lemmas: code-point order -/

theorem charListLe_of_not_le (xs : List Char) :
    ∀ ys, charListLe xs ys = false → charListLe ys xs = true := by
  induction xs with
  | nil => intro ys h; simp [charListLe] at h
  | cons x xs ih =>
      intro ys h
      cases ys with
      | nil => simp [charListLe]
      | cons y ys =>
          simp only [charListLe] at h ⊢
          by_cases hxy : x.toNat < y.toNat
          · simp [hxy] at h
          · by_cases hyx : y.toNat < x.toNat
            · simp [hxy, hyx]
            · simp only [hxy, hyx, if_false] at h ⊢
              exact ih ys h

theorem charListLe_trans (xs : List Char) :
    ∀ ys zs, charListLe xs ys = true → charListLe ys zs = true →
      charListLe xs zs = true := by
  induction xs with
  | nil => intro ys zs _ _; simp [charListLe]
  | cons x xs ih =>
      intro ys zs h1 h2
      cases ys with
      | nil => simp [charListLe] at h1
      | cons y ys =>
          cases zs with
          | nil => simp [charListLe] at h2
          | cons z zs =>
              simp only [charListLe] at h1 h2 ⊢
              by_cases hxy : x.toNat < y.toNat
              · by_cases hyz : y.toNat < z.toNat
                · simp [lt_trans hxy hyz]
                · by_cases hzy : z.toNat < y.toNat
                  · simp [hyz, hzy] at h2
                  · have e : y.toNat = z.toNat :=
                      le_antisymm (not_lt.mp hzy) (not_lt.mp hyz)
                    simp [e ▸ hxy]
              · by_cases hyx : y.toNat < x.toNat
                · simp [hxy, hyx] at h1
                · have e1 : x.toNat = y.toNat :=
                    le_antisymm (not_lt.mp hyx) (not_lt.mp hxy)
                  by_cases hyz : y.toNat < z.toNat
                  · simp [e1 ▸ hyz]
                  · by_cases hzy : z.toNat < y.toNat
                    · simp [hyz, hzy] at h2
                    · have e2 : y.toNat = z.toNat :=
                        le_antisymm (not_lt.mp hzy) (not_lt.mp hyz)
                      have hxz : ¬ x.toNat < z.toNat := by omega
                      have hzx : ¬ z.toNat < x.toNat := by omega
                      simp only [hxy, hyx, if_false] at h1
                      simp only [hyz, hzy, if_false] at h2
                      simp only [hxz, hzx, if_false]
                      exact ih ys zs h1 h2

theorem strLe_of_not_le (a b : String) (h : strLe a b = false) :
    strLe b a = true :=
  charListLe_of_not_le a.data b.data h

theorem strLe_trans (a b c : String) (h1 : strLe a b = true)
    (h2 : strLe b c = true) : strLe a c = true :=
  charListLe_trans a.data b.data c.data h1 h2

/-! ### Helper lemmas: insertion sort by key -/

theorem all_strLe_insertByKey (a : String) (p : String × JVal) :
    ∀ l : List (String × JVal), strLe a p.1 = true →
      ((l.map Prod.fst).all fun b => strLe a b) = true →
      (((insertByKey p l).map Prod.fst).all fun b => strLe a b) = true := by
  intro l
  induction l with
  | nil => intro hp _; simp [insertByKey, hp]
  | cons q rest ih =>
      intro hp hl
      simp only [List.map_cons, List.all_cons, Bool.and_eq_true] at hl
      cases hpq : strLe p.1 q.1 with
      | true => simp [insertByKey, hpq, hp, hl.1, hl.2]
      | false =>
          simp only [insertByKey, hpq, Bool.false_eq_true, if_false,
            List.map_cons, List.all_cons, Bool.and_eq_true]
          exact ⟨hl.1, ih hp hl.2⟩

theorem keysSortedB_insertByKey (p : String × JVal) :
    ∀ l : List (String × JVal), keysSortedB (l.map Prod.fst) = true →
      keysSortedB ((insertByKey p l).map Prod.fst) = true := by
  intro l
  induction l with
  | nil => intro _; simp [insertByKey, keysSortedB]
  | cons q rest ih =>
      intro h
      simp only [List.map_cons, keysSortedB, List.all_cons, Bool.and_eq_true] at h
      cases hpq : strLe p.1 q.1 with
      | true =>
          simp only [insertByKey, hpq, if_true, List.map_cons, keysSortedB,
            List.all_cons, Bool.and_eq_true]
          refine ⟨⟨trivial, ?_⟩, h.1, h.2⟩
          have h1 := h.1
          simp only [List.all_eq_true] at h1 ⊢
          intro b hb
          exact strLe_trans p.1 q.1 b hpq (h1 b hb)
      | false =>
          simp only [insertByKey, hpq, Bool.false_eq_true, if_false,
            List.map_cons, keysSortedB, List.all_cons, Bool.and_eq_true]
          refine ⟨?_, ih h.2⟩
          have hqp : strLe q.1 p.1 = true := strLe_of_not_le p.1 q.1 hpq
          have hall : ((rest.map Prod.fst).all fun b => strLe q.1 b) = true := by
            simp only [List.all_eq_true] at h ⊢
            intro b hb
            exact h.1 b hb
          exact all_strLe_insertByKey q.1 p rest hqp hall

theorem keysSortedB_pySorted (l : List (String × JVal)) :
    keysSortedB ((pySorted l).map Prod.fst) = true := by
  induction l with
  | nil => rfl
  | cons p rest ih => exact keysSortedB_insertByKey p (pySorted rest) ih

/-! ### Helper lemmas: substrings -/

theorem startsWithB_append (xs : List Char) :
    ∀ ys, startsWithB xs (xs ++ ys) = true := by
  induction xs with
  | nil => intro ys; rfl
  | cons x xs ih => intro ys; simp [startsWithB, ih]

theorem hasSubstrB_of_startsWithB (pat s : List Char)
    (h : startsWithB pat s = true) : hasSubstrB pat s = true := by
  cases s with
  | nil => simpa [hasSubstrB] using h
  | cons x rest => simp [hasSubstrB, h]

theorem hasSubstrB_append (pat : List Char) :
    ∀ pre post, hasSubstrB pat (pre ++ (pat ++ post)) = true := by
  intro pre
  induction pre with
  | nil =>
      intro post
      exact hasSubstrB_of_startsWithB pat (pat ++ post) (startsWithB_append pat post)
  | cons x pre ih =>
      intro post
      show (startsWithB pat (x :: (pre ++ (pat ++ post))) ||
        hasSubstrB pat (pre ++ (pat ++ post))) = true
      rw [ih post, Bool.or_true]

/-! ### Helper lemmas: filesystem states -/

theorem isEmpty_eq_false_of_mem {a : String} {l : List String} (h : a ∈ l) :
    l.isEmpty = false := by
  cases l with
  | nil => cases h
  | cons x rest => rfl

theorem insert_isEmpty_eq_false (a : String) (l : List String) :
    (l.insert a).isEmpty = false :=
  isEmpty_eq_false_of_mem (List.mem_insert_self a l)

/-! ### Comment-dictionary key order -/

mutual

theorem commentDictKeysSorted : ∀ c : PComment,
    ((flattenedCommentDicts c).all fun d => keysSortedB (topKeys d)) = true
  | .node a rs => by
      have hrest := forestDictKeysSorted rs
      simp only [flattenedCommentDicts, List.all_cons, hrest, Bool.and_true]
      simp only [comment_to_dict, topKeys, List.map_cons, List.map_nil]
      decide

theorem forestDictKeysSorted : ∀ cs : List PComment,
    ((flattenedForest cs).all fun d => keysSortedB (topKeys d)) = true
  | [] => rfl
  | c :: rest => by
      have h1 := commentDictKeysSorted c
      have h2 := forestDictKeysSorted rest
      simp only [flattenedForest, List.all_append, h1, h2, Bool.and_true]

end

/-- C9: every EnrichedRecord appended to the accumulator has its keys in
lexicographically sorted order, both at the top level of each submission
record (the driver sorts the dict before appending) and in every nested
comment/reply record produced by the comment flattening. -/
theorem c9_record_keys_sorted : ∀ (s : SubmissionAttrs) (cs : List PComment),
    keysSortedB (topKeys (buildRecord s cs)) = true ∧
    ((flattenedForest cs).all fun d => keysSortedB (topKeys d)) = true := by
  intro s cs
  constructor
  · simp only [buildRecord, submission_to_dict, setComments, sortItems, topKeys]
    exact keysSortedB_pySorted _
  · exact forestDictKeysSorted cs

/-- C1: the driver computes the discovery call's remaining count as
`max_submissions - len(posts)`; with `max_submissions = None` (unbounded
session) this expression is not well-defined — Python raises a `TypeError`
for every accumulator length — even though the client itself accepts an
unbounded count (`pendingPos none = true`). -/
theorem c1_unbounded_count_type_error :
    (∀ k : Nat, mainQueryCount none k =
      .error "TypeError: unsupported operand types for -: NoneType and int") ∧
    pendingPos none = true :=
  ⟨fun _ => rfl, rfl⟩

/-- Concrete submission attributes used for the resume scenario. -/
def sampleSubmissionAttrs (t : Int) : SubmissionAttrs where
  author_name := .jstr "alice"
  author_flair_text := .jnull
  created_utc := t
  distinguished := .jnull
  edited := .jbool false
  id := .jstr "abc123"
  is_original_content := .jbool false
  link_flair_text := .jnull
  locked := .jbool false
  name := .jstr "t3_abc123"
  num_comments := .jint 0
  over_18 := .jbool false
  permalink := .jstr "/r/test/comments/abc123"
  removed_by_category := .jnull
  score := .jint 1
  selftext := .jstr ""
  spoiler := .jbool false
  stickied := .jbool false
  subreddit_display_name := .jstr "test"
  title := .jstr "hello"
  upvote_ratio := .jint 1
  url := .jstr "https://example.com"

/-- Checkpoint of 30 records all built by the driver pipeline from
submissions created at epoch 1700000000. -/
def sampleCheckpoint : List JVal :=
  List.replicate 30 (buildRecord (sampleSubmissionAttrs 1700000000) [])

/-- C3: resuming a checkpoint of 30 records with requested count 50 does
request exactly 50 - 30 = 20 further items, but the `before` cursor the
driver passes is the last record's `created_utc` field, which the record
builder stored as the formatted string `2023-11-14 22:13:20` — not as the
epoch-seconds value 1700000000 the Cursor contract (and the client's
`before` parameter) requires. -/
theorem c3_resume_cursor_is_formatted_string :
    mainQueryCount (some 50) sampleCheckpoint.length = .ok 20 ∧
    resumeBefore sampleCheckpoint = some (.jstr "2023-11-14 22:13:20") ∧
    isStrVal (resumeBefore sampleCheckpoint) = true ∧
    isIntVal (resumeBefore sampleCheckpoint) = false := by
  exact ⟨rfl, rfl, rfl, rfl⟩

/-- C7: with `max_submissions = None` the driver's intermediate checkpoint
filename interpolates Python's `str(None)`, producing the marker `None`
instead of the `inf` the naming scheme prescribes; the resulting name does
not contain `inf` and is rejected by the checkpoint-discovery pattern that
a later resume uses, while counts written as digits or as `inf` are
accepted. -/
theorem c7_intermediate_name_unbounded_marker :
    intermediateArchiveName ⟨"test", none, 5, 6, []⟩ =
      "intermediate_test_None_5_6.json" ∧
    matchesIntermediatePattern "test"
      (intermediateArchiveName ⟨"test", none, 5, 6, []⟩) = false ∧
    strContains (intermediateArchiveName ⟨"test", none, 5, 6, []⟩) "inf" = false ∧
    matchesIntermediatePattern "test" "intermediate_test_inf_5_6.json" = true ∧
    matchesIntermediatePattern "test"
      (intermediateArchiveName ⟨"test", some 100, 5, 6, []⟩) = true := by
  refine ⟨rfl, ?_, ?_, ?_, ?_⟩ <;> decide

/-- C8: the final archive filename embeds the actual number of accumulated
records: it is independent of the requested count, and the decimal rendering
of `len(posts)` occurs in the name. -/
theorem c8_final_name_uses_actual_count : ∀ (st : SessionState) (n : Option Int),
    finalArchiveName { st with max_submissions := n } = finalArchiveName st ∧
    strContains (finalArchiveName st) (toString st.posts.length) = true := by
  intro st n
  constructor
  · rfl
  · have h := hasSubstrB_append (toString st.posts.length).data
      (st.subreddit.data ++ "_".data)
      ("_".data ++ ((toString st.t_start_ms).data ++ ("_".data ++
        ((toString st.t_end_ms).data ++ ".json".data))))
    simpa [strContains, finalArchiveName, String.data_append,
      List.append_assoc] using h

/-- C4: in every checkpoint save the new file is written before the previous
one is deleted, so after the first save the session always has at least one
live checkpoint file, at every intermediate point of the operation sequence
— given that successive checkpoint names differ (the clock embedded in the
names advances between saves) and that a resumed-from checkpoint is on disk
at session start. -/
theorem c4_write_before_delete : ∀ (old : Option String) (init : List String)
    (names : List String),
    (∀ o, old = some o → o ∈ init) →
    consecDistinct (old.toList ++ names) = true →
    ((fsStates init (sessionOps old names)).all fun fs => !fs.isEmpty) = true := by
  intro old init names
  induction names generalizing old init with
  | nil => intro _ _; cases old <;> rfl
  | cons n rest ih =>
      intro hmem hdist
      cases old with
      | none =>
          simp only [Option.toList, List.nil_append] at hdist
          simp only [sessionOps, fsStates, applyOp, List.all_cons,
            Bool.and_eq_true]
          refine ⟨by rw [insert_isEmpty_eq_false]; rfl, ?_⟩
          exact ih (some n) (init.insert n)
            (fun o h => by cases h; exact List.mem_insert_self n init) hdist
      | some o =>
          have hdist2 : ((o != n) && consecDistinct (n :: rest)) = true := hdist
          rw [Bool.and_eq_true] at hdist2
          have hne : o ≠ n := by simpa using hdist2.1
          have hmem2 : n ∈ (init.insert n).erase o :=
            (List.mem_erase_of_ne (Ne.symm hne)).mpr (List.mem_insert_self n init)
          simp only [sessionOps, fsStates, applyOp, List.all_cons,
            Bool.and_eq_true]
          refine ⟨by rw [insert_isEmpty_eq_false]; rfl, ?_, ?_⟩
          · rw [isEmpty_eq_false_of_mem hmem2]; rfl
          · exact ih (some n) ((init.insert n).erase o)
              (fun o2 h => by cases h; exact hmem2) hdist2.2

/-- Witness for C4 at a concrete resumed session: the on-disk checkpoint
`i0.json` is superseded by `i1.json` and then `i2.json`. -/
theorem c4_write_before_delete_witness :
    ((fsStates ["i0.json"]
      (sessionOps (some "i0.json") ["i1.json", "i2.json"])).all
        fun fs => !fs.isEmpty) = true :=
  c4_write_before_delete (some "i0.json") ["i0.json"] ["i1.json", "i2.json"]
    (fun o h => by cases h; exact List.mem_singleton.mpr rfl) (by decide)

/-! ### Rate limiter lemmas -/

theorem acquireFinish_spacing (last now : ℚ) (_h : last ≤ now) :
    last + waitBetweenSecs ≤ acquireFinish last now := by
  unfold acquireFinish sleepDuration
  rcases le_total (waitBetweenSecs - (now - last)) 0 with hc | hc
  · rw [max_eq_left hc]
    linarith
  · rw [max_eq_right hc]
    linarith

theorem runLimiter_head (last start : ℚ) (gaps : List ℚ) :
    (runLimiter last start gaps).head? = some (acquireFinish last start) := by
  cases gaps <;> rfl

theorem runLimiter_chain (gaps : List ℚ) : ∀ last start : ℚ, last ≤ start →
    (∀ g ∈ gaps, 0 ≤ g) →
    List.Chain' (fun a b => a + waitBetweenSecs ≤ b)
      (runLimiter last start gaps) := by
  induction gaps with
  | nil => intro last start _ _; simp [runLimiter]
  | cons g rest ih =>
      intro last start h hg
      have hgnn : 0 ≤ g := hg g (List.mem_cons_self g rest)
      show List.Chain' _ (acquireFinish last start ::
        runLimiter (acquireFinish last start)
          (acquireFinish last start + g) rest)
      rw [List.chain'_cons']
      constructor
      · intro b hb
        rw [runLimiter_head] at hb
        simp only [Option.mem_def, Option.some_inj] at hb
        subst hb
        exact acquireFinish_spacing _ _ (by linarith)
      · exact ih _ _ (by linarith)
          (fun g2 hg2 => hg g2 (List.mem_cons_of_mem g hg2))

/-- C6 counterexample: on a fresh instance (`_last_request_time = 0`) the
first acquisition does block when the monotonic clock reads 1/2 second: the
computed sleep is positive, refuting "the first acquisition never blocks
regardless of the monotonic clock's value". -/
theorem c6_first_call_blocks_counterexample :
    0 < sleepDuration initialLastRequestTime (1/2) := by
  norm_num [sleepDuration, initialLastRequestTime, waitBetweenSecs,
    serverRatelimitPerMinute, lt_max_iff]

/-- C6 amended: for any sequence of consecutive acquisitions on a fresh
instance (each call starting no earlier than the previous one returned), the
finish times of consecutive acquisitions are at least
`60 / requests_per_minute` seconds apart; and the first acquisition incurs
zero sleep exactly when the monotonic clock already reads at least
`60 / requests_per_minute` seconds — not for every clock value, since the
initial last-request time is the clock origin `0`. -/
theorem c6_ratelimit_spacing_amended :
    (∀ (t0 : ℚ) (gaps : List ℚ), 0 ≤ t0 → (∀ g ∈ gaps, 0 ≤ g) →
      List.Chain' (fun a b => a + waitBetweenSecs ≤ b)
        (runLimiter initialLastRequestTime t0 gaps)) ∧
    (∀ t0 : ℚ, 0 ≤ t0 →
      (sleepDuration initialLastRequestTime t0 = 0 ↔ waitBetweenSecs ≤ t0)) := by
  constructor
  · intro t0 gaps h hg
    exact runLimiter_chain gaps initialLastRequestTime t0
      (by simpa [initialLastRequestTime] using h) hg
  · intro t0 _h
    rw [show sleepDuration initialLastRequestTime t0 =
      max 0 (waitBetweenSecs - t0) from by
        simp [sleepDuration, initialLastRequestTime]]
    rw [max_eq_left_iff]
    constructor <;> intro hx <;> linarith

/-- Witness for C6 at concrete inputs: three acquisitions starting at clock
2, then immediately after return, then 5 seconds later, are spaced at least
one second apart; and the first call at clock 3 sleeps zero. -/
theorem c6_ratelimit_witness :
    List.Chain' (fun a b => a + waitBetweenSecs ≤ b)
      (runLimiter initialLastRequestTime 2 [0, 5]) ∧
    sleepDuration initialLastRequestTime 3 = 0 := by
  constructor
  · exact c6_ratelimit_spacing_amended.1 2 [0, 5] (by norm_num)
      (by intro g hg; fin_cases hg <;> norm_num)
  · exact (c6_ratelimit_spacing_amended.2 3 (by norm_num)).mpr
      (by norm_num [waitBetweenSecs, serverRatelimitPerMinute])

/-! ### Per-page failure descriptors -/

/-- Page processing raised `PushshiftHTTPError` with status `s`. -/
def raisesHttpB (r : Resp) (s : Nat) : Bool :=
  match processResponse r with
  | .error (.httpError s2) => s2 == s
  | _ => false

/-- Page processing raised `PushshiftJSONError` carrying raw text `t`. -/
def raisesJsonB (r : Resp) (t : String) : Bool :=
  match processResponse r with
  | .error (.jsonError t2) => t2 == t
  | _ => false

/-- Page processing raised `PushshiftKeyError`. -/
def raisesKeyB (r : Resp) : Bool :=
  match processResponse r with
  | .error (.keyError _) => true
  | _ => false

/-- Page processing escaped with an uncaught Python `TypeError`. -/
def raisesTypeB (r : Resp) : Bool :=
  match processResponse r with
  | .error .typeError => true
  | _ => false

/-- Page processing failed in any way. -/
def processFails (r : Resp) : Bool :=
  match processResponse r with
  | .error _ => true
  | .ok _ => false

/-- Condition of the claim: the response is an HTTP error with status `s`. -/
def isHttpFailureB : Resp → Nat → Bool
  | .httpFailure s2, s => s2 == s
  | _, _ => false

/-- Condition of the claim: the response body `t` is not valid JSON. -/
def isBadJsonB : Resp → String → Bool
  | .success t2 none, t => t2 == t
  | _, _ => false

/-- Condition of the claim, restricted as the code requires: the body parsed
to a JSON object lacking the `data` field. -/
def isObjLackingDataB : Resp → Bool
  | .success _ (some (.jobj kvs)) => (lookupField kvs "data").isNone
  | _ => false

/-- Condition exactly as the claim words it: a well-formed JSON value lacking
the `data` field (a non-object value has no fields at all). -/
def lacksDataB : JVal → Bool
  | .jobj kvs => (lookupField kvs "data").isNone
  | _ => true

/-- C5 counterexample: the response body `[1, 2]` is well-formed JSON lacking
the `data` field, yet the code raises no `PushshiftKeyError` for it — the
subscript `resp['data']` on a list escapes as an uncaught `TypeError`, so the
claimed "if and only if" fails at this input. -/
theorem c5_nonobject_body_counterexample :
    lacksDataB (.jarr [.jint 1, .jint 2]) = true ∧
    raisesKeyB (.success "[1, 2]" (some (.jarr [.jint 1, .jint 2]))) = false ∧
    raisesTypeB (.success "[1, 2]" (some (.jarr [.jint 1, .jint 2]))) = true :=
  ⟨rfl, rfl, rfl⟩

/-- C5 amended: for every page request, `PushshiftHTTPError` with status `s`
is raised iff the response is an HTTP error with that status;
`PushshiftJSONError` carrying text `t` is raised iff the body `t` is not
valid JSON; `PushshiftKeyError` is raised iff the body parsed to a JSON
object lacking the `data` field (a well-formed non-object body instead
escapes as an uncaught `TypeError`), and it carries the parsed body; and a
failing page contributes no yielded items. -/
theorem c5_page_failures_amended : ∀ (r : Resp) (s : Nat) (t : String),
    (raisesHttpB r s = isHttpFailureB r s) ∧
    (raisesJsonB r t = isBadJsonB r t) ∧
    (raisesKeyB r = isObjLackingDataB r) ∧
    (∀ t2 kvs, raisesKeyB (.success t2 (some (.jobj kvs))) = true →
      processResponse (.success t2 (some (.jobj kvs))) =
        .error (.keyError (.jobj kvs))) ∧
    (∀ idKey idVal pending before, processFails r = true →
      (queryItemsLoop idKey idVal [r] pending before).yielded = []) := by
  intro r s t
  refine ⟨?_, ?_, ?_, ?_, ?_⟩
  · cases r with
    | httpFailure s2 => rfl
    | success t2 p =>
        cases p with
        | none => rfl
        | some v =>
            cases v with
            | jobj kvs =>
                cases h : lookupField kvs "data" <;>
                  simp [raisesHttpB, processResponse, h, isHttpFailureB]
            | jnull => rfl
            | jbool b => rfl
            | jint n => rfl
            | jstr s2 => rfl
            | jarr xs => rfl
  · cases r with
    | httpFailure s2 => rfl
    | success t2 p =>
        cases p with
        | none => rfl
        | some v =>
            cases v with
            | jobj kvs =>
                cases h : lookupField kvs "data" <;>
                  simp [raisesJsonB, processResponse, h, isBadJsonB]
            | jnull => rfl
            | jbool b => rfl
            | jint n => rfl
            | jstr s2 => rfl
            | jarr xs => rfl
  · cases r with
    | httpFailure s2 => rfl
    | success t2 p =>
        cases p with
        | none => rfl
        | some v =>
            cases v with
            | jobj kvs =>
                cases h : lookupField kvs "data" <;>
                  simp [raisesKeyB, processResponse, h, isObjLackingDataB]
            | jnull => rfl
            | jbool b => rfl
            | jint n => rfl
            | jstr s2 => rfl
            | jarr xs => rfl
  · intro t2 kvs h
    cases hl : lookupField kvs "data" with
    | none => simp [processResponse, hl]
    | some d => simp [raisesKeyB, processResponse, hl] at h
  · intro idKey idVal pending before h
    cases hp : pendingPos pending with
    | false => simp [queryItemsLoop, hp]
    | true =>
        cases hpr : processResponse r with
        | error e => simp [queryItemsLoop, hp, hpr]
        | ok d => simp [processFails, hpr] at h

/-- Witness for C5 at concrete pages: a 404 response, an object body without
`data`, and a 500 page that yields nothing. -/
theorem c5_page_failures_witness :
    raisesHttpB (.httpFailure 404) 404 = isHttpFailureB (.httpFailure 404) 404 ∧
    processResponse (.success "{}" (some (.jobj []))) =
      .error (.keyError (.jobj [])) ∧
    (queryItemsLoop "subreddit" "espresso" [.httpFailure 500] none none).yielded
      = [] :=
  ⟨(c5_page_failures_amended (.httpFailure 404) 404 "x").1,
   (c5_page_failures_amended (.success "{}" (some (.jobj []))) 0 "x").2.2.2.1
     "{}" [] rfl,
   (c5_page_failures_amended (.httpFailure 500) 0 "x").2.2.2.2
     "subreddit" "espresso" none none rfl⟩

/-! ### Equivalence of the two `Pushshift` transcriptions -/

theorem ruPendingPosEq : ∀ p, RedditUtils.pendingPos p = pendingPos p := by
  intro p
  cases p <;> rfl

theorem ruDecPendingEq : ∀ p, RedditUtils.decPending p = decPending p := by
  intro p
  cases p <;> rfl

theorem ruPendingTakeEq : ∀ p xs,
    RedditUtils.pendingTake p xs = pendingTake p xs := by
  intro p xs
  cases p <;> rfl

theorem ruProcessResponseEq : ∀ r,
    RedditUtils.processResponse r = processResponse r := by
  intro r
  cases r with
  | httpFailure s => rfl
  | success t p =>
      cases p with
      | none => rfl
      | some v =>
          cases v with
          | jobj kvs =>
              cases h : lookupField kvs "data" <;>
                simp [RedditUtils.processResponse, processResponse, h]
          | jnull => rfl
          | jbool b => rfl
          | jint n => rfl
          | jstr s => rfl
          | jarr xs => rfl

theorem ruConsumePageEq : ∀ (items : List JVal) (pending : Option Int)
    (before : Option JVal),
    RedditUtils.consumePage items pending before =
      consumePage items pending before := by
  intro items
  induction items with
  | nil => intro pending before; rfl
  | cons item rest ih =>
      intro pending before
      cases item with
      | jobj fields =>
          cases h : lookupField fields "created_utc" with
          | none =>
              simp [RedditUtils.consumePage, consumePage, h, ruDecPendingEq]
          | some c =>
              simp [RedditUtils.consumePage, consumePage, h, ruDecPendingEq, ih]
      | jnull => simp [RedditUtils.consumePage, consumePage, ruDecPendingEq]
      | jbool b => simp [RedditUtils.consumePage, consumePage, ruDecPendingEq]
      | jint n => simp [RedditUtils.consumePage, consumePage, ruDecPendingEq]
      | jstr s => simp [RedditUtils.consumePage, consumePage, ruDecPendingEq]
      | jarr xs => simp [RedditUtils.consumePage, consumePage, ruDecPendingEq]

theorem ruQueryItemsLoopEq (idKey idVal : String) : ∀ (pages : List Resp)
    (pending : Option Int) (before : Option JVal),
    RedditUtils.queryItemsLoop idKey idVal pages pending before =
      queryItemsLoop idKey idVal pages pending before := by
  intro pages
  induction pages with
  | nil => intro pending before; rfl
  | cons r rest ih =>
      intro pending before
      rw [RedditUtils.queryItemsLoop, queryItemsLoop, ruPendingPosEq]
      by_cases hpp : pendingPos pending = false
      · rw [if_pos hpp, if_pos hpp]
      · rw [if_neg hpp, if_neg hpp, ruProcessResponseEq]
        cases hpr : processResponse r with
        | error e => rfl
        | ok d =>
            dsimp only
            by_cases hf : isFalsy d = true
            · rw [if_pos hf, if_pos hf]
            · rw [if_neg hf, if_neg hf]
              cases d with
              | jarr items =>
                  dsimp only
                  rw [ruPendingTakeEq, ruConsumePageEq]
                  rcases hc : consumePage (pendingTake pending items)
                    pending before with ⟨ys, p2, b2, err⟩
                  cases err with
                  | some e => rfl
                  | none =>
                      dsimp only
                      rw [ih p2 b2]
              | jnull => rfl
              | jbool b => rfl
              | jint n => rfl
              | jstr s => rfl
              | jobj kvs => rfl

theorem ruQueryItemsEq : ∀ (itemType sorid : String) (pages : List Resp)
    (count : Option Int) (before : Option JVal),
    RedditUtils.queryItems itemType sorid pages count before =
      queryItems itemType sorid pages count before := by
  intro it sorid pages count before
  unfold RedditUtils.queryItems queryItems
  by_cases h : it = "submission" ∨ it = "comment"
  · rw [if_pos h, if_pos h]
    exact ruQueryItemsLoopEq _ _ pages count before
  · rw [if_neg h, if_neg h]

theorem ruQuerySubmissionCountEq : ∀ r,
    RedditUtils.querySubmissionCount r = querySubmissionCount r := by
  intro r
  cases r with
  | httpFailure s => rfl
  | success t p =>
      cases p with
      | none => rfl
      | some v =>
          cases v with
          | jobj kvs =>
              cases h : lookupField kvs "metadata" with
              | none =>
                  simp [RedditUtils.querySubmissionCount, querySubmissionCount, h]
              | some m =>
                  cases m with
                  | jobj mkvs =>
                      cases h2 : lookupField mkvs "total_results" <;>
                        simp [RedditUtils.querySubmissionCount,
                          querySubmissionCount, h, h2]
                  | jnull =>
                      simp [RedditUtils.querySubmissionCount,
                        querySubmissionCount, h]
                  | jbool b =>
                      simp [RedditUtils.querySubmissionCount,
                        querySubmissionCount, h]
                  | jint n =>
                      simp [RedditUtils.querySubmissionCount,
                        querySubmissionCount, h]
                  | jstr s2 =>
                      simp [RedditUtils.querySubmissionCount,
                        querySubmissionCount, h]
                  | jarr xs =>
                      simp [RedditUtils.querySubmissionCount,
                        querySubmissionCount, h]
          | jnull => rfl
          | jbool b => rfl
          | jint n => rfl
          | jstr s2 => rfl
          | jarr xs => rfl

/-- C10: the `Pushshift` class of `src/pushshift_api.py` and the copy in
`src/reddit_utils.py` (the one the driver imports) are behaviorally
equivalent: on every input and every sequence of upstream responses the
public queries, the internal pagination loop and the rate-limit computations
of the two transcriptions produce identical results — identical yielded
items, identical page requests, identical failures, identical sleep times. -/
theorem c10_pushshift_copies_equivalent :
    (∀ r, RedditUtils.querySubmissionCount r = querySubmissionCount r) ∧
    (∀ itemType sorid pages count before,
      RedditUtils.queryItems itemType sorid pages count before =
        queryItems itemType sorid pages count before) ∧
    (∀ sub pages count before,
      RedditUtils.querySubmissions sub pages count before =
        querySubmissions sub pages count before) ∧
    (∀ sid pages count before,
      RedditUtils.queryComments sid pages count before =
        queryComments sid pages count before) ∧
    RedditUtils.waitBetweenSecs = waitBetweenSecs ∧
    (∀ last now, RedditUtils.sleepDuration last now = sleepDuration last now) ∧
    (∀ last now, RedditUtils.acquireFinish last now = acquireFinish last now) := by
  refine ⟨ruQuerySubmissionCountEq, ruQueryItemsEq, ?_, ?_, rfl,
    fun _ _ => rfl, fun _ _ => rfl⟩
  · intro sub pages count before
    exact ruQueryItemsEq "submission" sub pages count before
  · intro sid pages count before
    exact ruQueryItemsEq "comment" sid pages count before

/-! ### Pagination: order, count and request bounds -/

/-- Ceiling of `n / page_size` with the fixed request size 500. -/
def ceilPages (n : Nat) : Nat :=
  (n + requestSize - 1) / requestSize

/-- Items the endpoint makes available: the concatenation of the served pages
up to (excluding) the first empty page, which signals exhaustion and ends the
loop. -/
def availableItems : List (List JVal) → List JVal
  | [] => []
  | p :: rest => if p.isEmpty then [] else p ++ availableItems rest

/-- A raw item the loop can process: a dict carrying `created_utc`. -/
def goodItemB : JVal → Bool
  | .jobj fields => (lookupField fields "created_utc").isSome
  | _ => false

/-- Pending count after `k` single decrements. -/
def iterDec : Option Int → Nat → Option Int
  | p, 0 => p
  | p, k + 1 => iterDec (decPending p) k

theorem iterDec_none : ∀ k, iterDec none k = none := by
  intro k
  induction k with
  | zero => rfl
  | succ k ih => exact ih

theorem iterDec_some : ∀ (k : Nat) (n : Int), iterDec (some n) k = some (n - k) := by
  intro k
  induction k with
  | zero => intro n; simp [iterDec]
  | succ k ih =>
      intro n
      show iterDec (some (n - 1)) k = some (n - (k + 1 : Nat))
      rw [ih]
      congr 1
      push_cast
      ring

theorem consumePage_good : ∀ (items : List JVal) (pending : Option Int)
    (before : Option JVal),
    (∀ v ∈ items, goodItemB v = true) →
    ∃ b2, consumePage items pending before =
      (items, iterDec pending items.length, b2, none) := by
  intro items
  induction items with
  | nil => intro pending before _; exact ⟨before, rfl⟩
  | cons item rest ih =>
      intro pending before hgood
      have h1 : goodItemB item = true := hgood item (List.mem_cons_self _ _)
      cases item with
      | jobj fields =>
          cases hc : lookupField fields "created_utc" with
          | none => simp [goodItemB, hc] at h1
          | some c =>
              obtain ⟨b2, hrec⟩ := ih (decPending pending) (some c)
                (fun v hv => hgood v (List.mem_cons_of_mem _ hv))
              refine ⟨b2, ?_⟩
              simp [consumePage, hc, hrec, iterDec]
      | jnull => simp [goodItemB] at h1
      | jbool b => simp [goodItemB] at h1
      | jint n => simp [goodItemB] at h1
      | jstr s => simp [goodItemB] at h1
      | jarr xs => simp [goodItemB] at h1

theorem queryItemsLoop_nonpos (idKey idVal : String) (pages : List Resp)
    (n : Int) (before : Option JVal) (h : n ≤ 0) :
    queryItemsLoop idKey idVal pages (some n) before = ⟨[], [], .finished⟩ := by
  have hp : pendingPos (some n) = false := by
    simp [pendingPos]
    omega
  rw [queryItemsLoop.eq_def, if_pos hp]

theorem pendingTake_split (pending : Option Int) (items rest2 : List JVal) :
    pendingTake pending items ++
      pendingTake (iterDec pending (pendingTake pending items).length) rest2 =
    pendingTake pending (items ++ rest2) := by
  cases pending with
  | none => simp [pendingTake, iterDec_none]
  | some n =>
      simp only [pendingTake, List.length_take, iterDec_some]
      rw [List.take_append_eq_append_take]
      congr 2
      omega

theorem queryItemsLoop_good_yields (resps : List Resp) :
    ∀ (pagesItems : List (List JVal)),
    List.Forall₂ (fun r items => processResponse r = .ok (.jarr items))
      resps pagesItems →
    (∀ p ∈ pagesItems, ∀ v ∈ p, goodItemB v = true) →
    ∀ (pending : Option Int) (before : Option JVal) (idKey idVal : String),
    (queryItemsLoop idKey idVal resps pending before).yielded =
      pendingTake pending (availableItems pagesItems) := by
  induction resps with
  | nil =>
      intro pagesItems hf _ pending before idKey idVal
      cases hf
      cases pending <;>
        simp [queryItemsLoop, ite_self, pendingTake, availableItems]
  | cons r rest ih =>
      intro pagesItems hf hg pending before idKey idVal
      cases pagesItems with
      | nil => cases hf
      | cons items pagesRest =>
          cases hf with
          | cons hr hrest =>
              by_cases hp : pendingPos pending = false
              · rw [queryItemsLoop, if_pos hp]
                cases pending with
                | none => simp [pendingPos] at hp
                | some n =>
                    have hn : n ≤ 0 := by
                      simp [pendingPos] at hp
                      omega
                    simp [pendingTake, Int.toNat_of_nonpos hn]
              · rw [queryItemsLoop, if_neg hp]
                dsimp only
                rw [hr]
                dsimp only
                cases items with
                | nil =>
                    rw [if_pos (show isFalsy (.jarr []) = true from rfl)]
                    cases pending <;> simp [pendingTake, availableItems]
                | cons item0 moreItems =>
                    rw [if_neg (by simp [isFalsy])]
                    have hgood : ∀ v ∈ pendingTake pending (item0 :: moreItems),
                        goodItemB v = true := by
                      intro v hv
                      apply hg (item0 :: moreItems) (List.mem_cons_self _ _)
                      cases pending with
                      | none => exact hv
                      | some n => exact List.take_subset _ _ hv
                    obtain ⟨b2, hc⟩ := consumePage_good
                      (pendingTake pending (item0 :: moreItems)) pending before hgood
                    rw [hc]
                    dsimp only
                    rw [ih pagesRest hrest
                      (fun p hp2 => hg p (List.mem_cons_of_mem _ hp2)) _ b2 idKey idVal]
                    rw [pendingTake_split]
                    have : availableItems ((item0 :: moreItems) :: pagesRest) =
                        (item0 :: moreItems) ++ availableItems pagesRest := by
                      simp [availableItems]
                    rw [this]

theorem queryItemsLoop_requests_bound (resps : List Resp) :
    ∀ (pagesItems : List (List JVal)),
    List.Forall₂ (fun r items => processResponse r = .ok (.jarr items))
      resps pagesItems →
    (∀ p ∈ pagesItems, ∀ v ∈ p, goodItemB v = true) →
    (∀ p ∈ pagesItems, p.length = requestSize) →
    ∀ (n : Int) (before : Option JVal) (idKey idVal : String),
    (queryItemsLoop idKey idVal resps (some n) before).requests.length ≤
      ceilPages n.toNat := by
  induction resps with
  | nil =>
      intro pagesItems hf _ _ n before idKey idVal
      cases hf
      simp [queryItemsLoop, ite_self]
  | cons r rest ih =>
      intro pagesItems hf hg hfull n before idKey idVal
      cases pagesItems with
      | nil => cases hf
      | cons items pagesRest =>
          cases hf with
          | cons hr hrest =>
              by_cases hp : pendingPos (some n) = false
              · rw [queryItemsLoop, if_pos hp]
                simp
              · have hn : 0 < n := by
                  simp [pendingPos, decide_eq_false_iff_not] at hp
                  omega
                have hlen : items.length = requestSize :=
                  hfull items (List.mem_cons_self _ _)
                have hne : items ≠ [] := by
                  intro h2
                  rw [h2] at hlen
                  simp [requestSize] at hlen
                rw [queryItemsLoop, if_neg hp]
                dsimp only
                rw [hr]
                dsimp only
                rw [if_neg (by simp [isFalsy, hne])]
                have hgood : ∀ v ∈ pendingTake (some n) items,
                    goodItemB v = true := by
                  intro v hv
                  exact hg items (List.mem_cons_self _ _) v
                    (List.take_subset _ _ hv)
                obtain ⟨b2, hc⟩ := consumePage_good
                  (pendingTake (some n) items) (some n) before hgood
                rw [hc]
                dsimp only
                have hslice : (pendingTake (some n) items).length =
                    min n.toNat requestSize := by
                  simp [pendingTake, List.length_take, hlen]
                rw [hslice, iterDec_some]
                by_cases hbig : (requestSize : Int) < n
                · have hmin : ((min n.toNat requestSize : Nat) : Int) =
                      (requestSize : Int) := by
                    simp [requestSize] at hbig ⊢
                    omega
                  rw [hmin]
                  have hrec := ih pagesRest hrest
                    (fun p hp2 => hg p (List.mem_cons_of_mem _ hp2))
                    (fun p hp2 => hfull p (List.mem_cons_of_mem _ hp2))
                    (n - requestSize) b2 idKey idVal
                  simp only [List.length_cons]
                  have : ((n - requestSize).toNat) + requestSize = n.toNat := by
                    simp [requestSize] at hbig ⊢
                    omega
                  simp [ceilPages, requestSize] at hrec ⊢
                  omega
                · have hmin : ((min n.toNat requestSize : Nat) : Int) = n := by
                    simp [requestSize] at hbig ⊢
                    omega
                  rw [hmin]
                  rw [queryItemsLoop_nonpos idKey idVal rest (n - n) b2 (by omega)]
                  simp [ceilPages, requestSize]
                  omega

/-- Raw item carrying only a creation timestamp. -/
def c2Item (t : Int) : JVal :=
  .jobj [("created_utc", .jint t)]

/-- Successful page response whose `data` array holds `xs`. -/
def c2PageResp (xs : List JVal) : Resp :=
  .success "" (some (.jobj [("data", .jarr xs)]))

/-- Two pages of one item each, as a stubbed endpoint may serve them. -/
def c2Pages : List Resp :=
  [c2PageResp [c2Item 100], c2PageResp [c2Item 90]]

/-- C2 counterexample: with `max_items = 2` and an endpoint serving two
non-empty pages of one item each, the loop issues 2 page requests while
`ceil(2 / 500) = 1`, refuting the claimed request bound for arbitrary page
sequences (the code requests again whenever items are still pending,
regardless of how full the previous page was). -/
theorem c2_requests_bound_counterexample :
    (querySubmissions "test" c2Pages (some 2) none).requests.length = 2 ∧
    ceilPages 2 = 1 ∧ 1 < 2 :=
  ⟨rfl, rfl, by decide⟩

/-- C2 amended: for every sequence of served pages of processable items and
every bounded `max_items = n > 0`, the loop yields exactly the first
`min(n, available)` items in served order, where `available` are the items
before the first empty page; and the bound of `ceil(n / 500)` page requests
holds provided every served page carries exactly `request_size = 500` items
(an endpoint serving shorter non-empty pages can force up to one request per
page instead). -/
theorem c2_discover_order_count_amended : ∀ (sub : String) (resps : List Resp)
    (pagesItems : List (List JVal)) (n : Int),
    0 < n →
    List.Forall₂ (fun r items => processResponse r = .ok (.jarr items))
      resps pagesItems →
    (∀ p ∈ pagesItems, ∀ v ∈ p, goodItemB v = true) →
    ((querySubmissions sub resps (some n) none).yielded =
        (availableItems pagesItems).take n.toNat ∧
      (querySubmissions sub resps (some n) none).yielded.length =
        min n.toNat (availableItems pagesItems).length) ∧
    ((∀ p ∈ pagesItems, p.length = requestSize) →
      (querySubmissions sub resps (some n) none).requests.length ≤
        ceilPages n.toNat) := by
  intro sub resps pagesItems n _ hf hg
  have hq : querySubmissions sub resps (some n) none =
      queryItemsLoop "subreddit" sub resps (some n) none := rfl
  constructor
  · constructor
    · rw [hq, queryItemsLoop_good_yields resps pagesItems hf hg (some n) none
        "subreddit" sub]
      rfl
    · rw [hq, queryItemsLoop_good_yields resps pagesItems hf hg (some n) none
        "subreddit" sub]
      simp [pendingTake, List.length_take]
  · intro hfull
    rw [hq]
    exact queryItemsLoop_requests_bound resps pagesItems hf hg hfull n none
      "subreddit" sub

/-- A full page of 500 processable items. -/
def c2FullPage : List JVal :=
  List.replicate 500 (c2Item 77)

/-- Witness for C2 at a concrete stub: one full page of 500 items, bounded
request of 3 items. -/
theorem c2_discover_witness :
    (querySubmissions "w" [c2PageResp c2FullPage] (some 3) none).yielded =
      (availableItems [c2FullPage]).take (3 : Int).toNat ∧
    (querySubmissions "w" [c2PageResp c2FullPage] (some 3) none).requests.length
      ≤ ceilPages (3 : Int).toNat := by
  have hf : List.Forall₂
      (fun r items => processResponse r = .ok (.jarr items))
      [c2PageResp c2FullPage] [c2FullPage] :=
    List.Forall₂.cons rfl List.Forall₂.nil
  have hg : ∀ p ∈ [c2FullPage], ∀ v ∈ p, goodItemB v = true := by
    intro p hp v hv
    rw [List.mem_singleton.mp hp] at hv
    rw [List.eq_of_mem_replicate hv]
    rfl
  have hfull : ∀ p ∈ [c2FullPage], p.length = requestSize := by
    intro p hp
    rw [List.mem_singleton.mp hp]
    show (List.replicate 500 (c2Item 77)).length = requestSize
    rw [List.length_replicate]
    rfl
  have h := c2_discover_order_count_amended "w" [c2PageResp c2FullPage]
    [c2FullPage] 3 (by norm_num) hf hg
  exact ⟨h.1.1, h.2 hfull⟩
